import Mathlib

/-!
Shallow embedding of the SVT-HEVC encoder adapter (the libsvt_hevc plugin
sharing a translation unit with the kernel-style doubly linked list): the
timestamp-keyed metadata cache, the EOS flush state machine, the input
descriptor packing (read_in_data), the encoder status mapping
(error_mapping), and the encode/close entry points.

The external encoder library is modelled as an oracle: each call to
eb_encode_frame carries the status the encoder would return from
EbH265EncSendPicture (which the C source discards) and the outcome of
EbH265GetPacket (either the empty-queue status or an output descriptor).
Calls the adapter makes into the encoder, payload copies, descriptor field
reads and descriptor releases are recorded in an event list so that
ordering properties (release-after-copy, read-after-release, polling) are
statable.  C unsigned arithmetic is modelled on Nat with explicit
reduction modulo 2 ^ 32 where a 32-bit product can wrap.
-/

set_option maxHeartbeats 1600000

/-- EOS_STATUS from the C source: EOS_NOT_REACHED = 0, EOS_SENT, EOS_RECEIVED. -/
inductive EOS_STATUS
  | EOS_NOT_REACHED
  | EOS_SENT
  | EOS_RECEIVED
deriving DecidableEq, Repr

/-- numeric rank of a flush state, for monotonicity statements
(NOT_REACHED = 0, SENT = 1, RECEIVED = 2, as in the C enum). -/
def eosRank : EOS_STATUS → Nat
  | .EOS_NOT_REACHED => 0
  | .EOS_SENT => 1
  | .EOS_RECEIVED => 2

/-- the EB_ERRORTYPE statuses distinguished by error_mapping; every code not
named in the switch is collapsed into EB_ErrorUnmappedOther (the default
branch). -/
inductive EB_ERRORTYPE
  | EB_ErrorNone
  | EB_ErrorInsufficientResources
  | EB_ErrorUndefined
  | EB_ErrorInvalidComponent
  | EB_ErrorBadParameter
  | EB_ErrorDestroyThreadFailed
  | EB_ErrorSemaphoreUnresponsive
  | EB_ErrorDestroySemaphoreFailed
  | EB_ErrorCreateMutexFailed
  | EB_ErrorMutexUnresponsive
  | EB_ErrorDestroyMutexFailed
  | EB_NoErrorEmptyQueue
  | EB_ErrorUnmappedOther
deriving DecidableEq, Repr

/-- errno values used through AVERROR on the reference platform. -/
def EAGAIN : Int := 11
/-- errno value for out-of-memory. -/
def ENOMEM : Int := 12
/-- errno value for invalid argument. -/
def EINVAL : Int := 22

/-- AVERROR(e) = -e in FFmpeg. -/
def AVERROR (e : Int) : Int := -e

/-- AVERROR_EXTERNAL = FFERRTAG of the four characters E X T space. -/
def AVERROR_EXTERNAL : Int := -542398533

/-- AVERROR_UNKNOWN = FFERRTAG of the four characters U N K N. -/
def AVERROR_UNKNOWN : Int := -1313558101

/-- error_mapping from the C source: maps an encoder status to the FFmpeg
error taxonomy. -/
def error_mapping : EB_ERRORTYPE → Int
  | .EB_ErrorInsufficientResources => AVERROR ENOMEM
  | .EB_ErrorUndefined => AVERROR EINVAL
  | .EB_ErrorInvalidComponent => AVERROR EINVAL
  | .EB_ErrorBadParameter => AVERROR EINVAL
  | .EB_ErrorDestroyThreadFailed => AVERROR_EXTERNAL
  | .EB_ErrorSemaphoreUnresponsive => AVERROR_EXTERNAL
  | .EB_ErrorDestroySemaphoreFailed => AVERROR_EXTERNAL
  | .EB_ErrorCreateMutexFailed => AVERROR_EXTERNAL
  | .EB_ErrorMutexUnresponsive => AVERROR_EXTERNAL
  | .EB_ErrorDestroyMutexFailed => AVERROR_EXTERNAL
  | .EB_NoErrorEmptyQueue => AVERROR EAGAIN
  | .EB_ErrorNone => 0
  | .EB_ErrorUnmappedOther => AVERROR_UNKNOWN

/-- EB_COLOR_FORMAT values config_enc_params can produce. -/
inductive EB_COLOR_FORMAT
  | EB_YUV420
  | EB_YUV422
  | EB_YUV444
deriving DecidableEq, Repr

/-- slice type tag carried by an output descriptor. -/
inductive EB_SLICE_TYPE
  | EB_IDR_PICTURE
  | EB_I_PICTURE
  | EB_P_PICTURE
  | EB_B_PICTURE
  | EB_NON_REF_PICTURE
  | EB_INVALID_PICTURE
deriving DecidableEq, Repr

/-- EB_BUFFERFLAG_EOS from the SVT-HEVC API. -/
def EB_BUFFERFLAG_EOS : Nat := 1

/-- the fields of EB_H265_ENC_CONFIGURATION that read_in_data consumes. -/
structure EncParams where
  sourceWidth : Nat
  sourceHeight : Nat
  encoderBitDepth : Nat
  encoderColorFormat : EB_COLOR_FORMAT
deriving DecidableEq, Repr

/-- the fields of AVFrame consumed by the adapter; plane base addresses are
abstract Nat identifiers, the metadata dictionary is modelled as the opaque
byte blob av_packet_pack_dictionary would serialize it to (none = NULL
dictionary). -/
structure AVFrame where
  pts : Int
  data0 : Nat
  data1 : Nat
  data2 : Nat
  linesize0 : Nat
  linesize1 : Nat
  linesize2 : Nat
  metadata : Option (List Nat)
deriving DecidableEq, Repr

/-- EB_H265_ENC_INPUT, the scratch record behind in_buf.pBuffer. -/
structure EB_H265_ENC_INPUT where
  luma : Option Nat
  cb : Option Nat
  cr : Option Nat
  yStride : Nat
  cbStride : Nat
  crStride : Nat
deriving DecidableEq, Repr

/-- the input side EB_BUFFERHEADERTYPE; pBuffer = none models a NULL data
pointer (the EOS sentinel, or the scratch buffer after it was freed). -/
structure InBuf where
  nAllocLen : Nat
  nFilledLen : Nat
  nTickCount : Nat
  pBuffer : Option EB_H265_ENC_INPUT
  nFlags : Nat
  pts : Int
  sliceType : EB_SLICE_TYPE
deriving DecidableEq, Repr

/-- the output side EB_BUFFERHEADERTYPE handed back by EbH265GetPacket. -/
structure OutBuf where
  nFilledLen : Nat
  pBuffer : List Nat
  pts : Int
  dts : Int
  sliceType : EB_SLICE_TYPE
  nFlags : Nat
deriving DecidableEq, Repr

/-- EB_FRAMEMETADATA: one pending metadata cache entry (the intrusive
list_head is replaced by plain list membership). -/
structure EB_FRAMEMETADATA where
  pts : Int
  metadata : Option (List Nat)
  size : Nat
deriving DecidableEq, Repr

/-- the adapter state: the fields of SvtContext the claims are about.
svt_handle models whether the encoder handle is non-NULL. -/
structure SvtContext where
  enc_params : EncParams
  svt_handle : Bool
  in_buf : InBuf
  eos_flag : EOS_STATUS
  list : List EB_FRAMEMETADATA
deriving DecidableEq, Repr

/-- a descriptor field, for recording reads of the output descriptor. -/
inductive OutField
  | fPts
  | fDts
  | fFilledLen
  | fBuffer
  | fSliceType
  | fFlags
deriving DecidableEq, Repr

/-- externally visible actions of the adapter, in program order. -/
inductive EncEvent
  | sendPicture (buf : InBuf)
  | getPacket (eos : EOS_STATUS)
  | copyPayload
  | readOut (f : OutField)
  | releaseOut
  | deinitEncoder
  | deinitHandle
  | freeInputBuffer
deriving DecidableEq, Repr

/-- outcome of one EbH265GetPacket poll, chosen by the encoder oracle. -/
inductive PollResult
  | emptyQueue
  | pkt (d : OutBuf)
deriving DecidableEq, Repr

/-- one call into eb_encode_frame: the submitted frame (none models the
NULL frame that signals end of input), together with the oracle answers of
the external encoder for this call.  sendRet is the status
EbH265EncSendPicture would return; the C source never reads it. -/
structure Call where
  frame : Option AVFrame
  sendRet : EB_ERRORTYPE
  poll : PollResult
deriving DecidableEq, Repr

/-- the AVPacket fields produced by a fetch. -/
structure Packet where
  data : List Nat
  size : Nat
  pts : Int
  dts : Int
  flagKey : Bool
  flagDisposable : Bool
  sideData : Option (List Nat)
deriving DecidableEq, Repr

/-- result of one eb_encode_frame call: the C return value, the got_packet
flag, the produced packet if any, the successor state, and the events the
call performed. -/
structure StepOut where
  ret : Int
  gotPacket : Bool
  pkt : Option Packet
  st : SvtContext
  events : List EncEvent
deriving DecidableEq, Repr

/-- per frame payload size computed by read_in_data: the luma plane size
(width times height, reduced modulo 2 ^ 32 because the C product is a
32-bit unsigned multiplication, then doubled for high bit depth), scaled by
the chroma layout factor.  In the C source the 4:2:0 branch is
frame_size *= 3/2u, an unsigned integer division, so the factor is 1. -/
def frame_size_of (config : EncParams) : Nat :=
  let is16bit : Nat := if 8 < config.encoderBitDepth then 1 else 0
  let base : Nat := ((config.sourceWidth * config.sourceHeight) % 2 ^ 32) <<< is16bit
  match config.encoderColorFormat with
  | .EB_YUV420 => base * (3 / 2)
  | .EB_YUV422 => base * 2
  | .EB_YUV444 => base * 3

/-- read_in_data from the C source: packs plane pointers and strides of the
frame into the scratch EB_H265_ENC_INPUT (strides shifted right by one for
high bit depth) and adds the frame size to nFilledLen.  When pBuffer is
NULL the C source would dereference a null pointer; the model leaves the
missing record absent (that path is a caller contract violation, a real
frame after the EOS sentinel). -/
def read_in_data (config : EncParams) (frame : AVFrame) (header : InBuf) : InBuf :=
  let is16bit : Nat := if 8 < config.encoderBitDepth then 1 else 0
  let in_data : Option EB_H265_ENC_INPUT :=
    match header.pBuffer with
    | some ind =>
        some { ind with
          luma := some frame.data0
          cb := some frame.data1
          cr := some frame.data2
          yStride := frame.linesize0 >>> is16bit
          cbStride := frame.linesize1 >>> is16bit
          crStride := frame.linesize2 >>> is16bit }
    | none => none
  { header with
    pBuffer := in_data
    nFilledLen := header.nFilledLen + frame_size_of config }

/-- the metadata correlation scan of eb_encode_frame (the
list_for_each_safe loop over the cache after a packet was received): finds
the first entry whose pts equals the packet pts; if that entry has a
non-NULL payload of positive size, the payload bytes are copied into fresh
side data and the entry is unlinked and freed, otherwise the loop just
breaks.  Returns the remaining cache and the attached side data. -/
def attach_metadata : List EB_FRAMEMETADATA → Int → List EB_FRAMEMETADATA × Option (List Nat)
  | [], _ => ([], none)
  | p :: rest, t =>
    if p.pts = t then
      match p.metadata with
      | some m => if 0 < p.size then (rest, some (m.take p.size)) else (p :: rest, none)
      | none => (p :: rest, none)
    else
      let r := attach_metadata rest t
      (p :: r.1, r.2)

/-- the duplicate guard scan of eb_encode_frame: true when the cache
already holds an entry with the given pts. -/
def has_pts_entry (l : List EB_FRAMEMETADATA) (t : Int) : Bool :=
  l.any fun p => p.pts = t

/-- prefix a list of events onto the event log of a StepOut. -/
def prependEvents (evs : List EncEvent) (r : StepOut) : StepOut :=
  { r with events := evs ++ r.events }

/-- result of the submission half of eb_encode_frame: successor state, the
events performed, and whether the C source returned 0 early (the duplicate
metadata guard path). -/
structure SubmitOut where
  st : SvtContext
  events : List EncEvent
  earlyReturn : Bool
deriving DecidableEq, Repr

/-- the submission half of eb_encode_frame (the body between the
EOS_RECEIVED early return and the EbH265GetPacket poll): a NULL frame in
state EOS_NOT_REACHED turns in_buf into the EOS sentinel (zero lengths,
NULL data, EOS flag), advances the flush state to EOS_SENT and submits it;
a real frame is packed by read_in_data, stamped with the frame pts and
submitted, and a frame carrying metadata appends a new cache entry unless
one with the same pts already exists, in which case the C source returns 0
immediately. -/
def submit_phase (st : SvtContext) (frame : Option AVFrame) : SubmitOut :=
  match frame with
  | none =>
    if st.eos_flag = .EOS_NOT_REACHED then
      let hdr : InBuf :=
        { st.in_buf with
          nAllocLen := 0
          nFilledLen := 0
          nTickCount := 0
          pBuffer := none
          nFlags := EB_BUFFERFLAG_EOS }
      { st := { st with in_buf := hdr, eos_flag := .EOS_SENT }
        events := [.sendPicture hdr]
        earlyReturn := false }
    else
      { st := st, events := [], earlyReturn := false }
  | some f =>
    let hdr : InBuf := { read_in_data st.enc_params f st.in_buf with pts := f.pts }
    let st1 : SvtContext := { st with in_buf := hdr }
    match f.metadata with
    | none => { st := st1, events := [.sendPicture hdr], earlyReturn := false }
    | some dict =>
      if has_pts_entry st1.list f.pts then
        { st := st1, events := [.sendPicture hdr], earlyReturn := true }
      else
        let p : EB_FRAMEMETADATA := { pts := f.pts, metadata := some dict, size := dict.length }
        { st := { st1 with list := st1.list ++ [p] }
          events := [.sendPicture hdr]
          earlyReturn := false }

/-- the retrieval half of eb_encode_frame (from the EbH265GetPacket poll to
the return): an empty queue yields got_packet = 0 and return 0 with the
state untouched; a descriptor is copied into a fresh packet (payload,
length, timestamps, key and disposable flags from the slice type), the
metadata cache is scanned and a matching entry attached and evicted, the
descriptor is released, and only after the release the C source reads its
nFlags field to advance the flush state when it equals EB_BUFFERFLAG_EOS.
The event list records that ordering verbatim. -/
def get_packet_phase (st : SvtContext) (poll : PollResult) : StepOut :=
  match poll with
  | .emptyQueue =>
    { ret := 0, gotPacket := false, pkt := none, st := st
      events := [.getPacket st.eos_flag] }
  | .pkt d =>
    let am := attach_metadata st.list d.pts
    let pkt1 : Packet :=
      { data := d.pBuffer.take d.nFilledLen
        size := d.nFilledLen
        pts := d.pts
        dts := d.dts
        flagKey := decide (d.sliceType = .EB_IDR_PICTURE ∨ d.sliceType = .EB_I_PICTURE)
        flagDisposable := decide (d.sliceType = .EB_NON_REF_PICTURE)
        sideData := am.2 }
    { ret := 0
      gotPacket := true
      pkt := some pkt1
      st := { st with
        list := am.1
        eos_flag := if d.nFlags = EB_BUFFERFLAG_EOS then .EOS_RECEIVED else st.eos_flag }
      events :=
        [.getPacket st.eos_flag, .readOut .fPts, .readOut .fFilledLen,
         .readOut .fBuffer, .readOut .fFilledLen, .copyPayload,
         .readOut .fFilledLen, .readOut .fPts, .readOut .fDts,
         .readOut .fSliceType, .releaseOut, .readOut .fFlags] }

/-- eb_encode_frame from the C source: in state EOS_RECEIVED it returns 0
with got_packet = 0 at once, performing no encoder call and no state
change; otherwise it runs the submission half, honours its early return on
the duplicate metadata guard, and then polls the encoder through the
retrieval half.  The status the encoder returns from EbH265EncSendPicture
(c.sendRet) is discarded, as in the C source. -/
def eb_encode_frame (st : SvtContext) (c : Call) : StepOut :=
  if st.eos_flag = .EOS_RECEIVED then
    { ret := 0, gotPacket := false, pkt := none, st := st, events := [] }
  else
    let s := submit_phase st c.frame
    if s.earlyReturn then
      { ret := 0, gotPacket := false, pkt := none, st := s.st, events := s.events }
    else
      prependEvents s.events (get_packet_phase s.st c.poll)

/-- free_buffer from the C source: av_freep of the scratch
EB_H265_ENC_INPUT behind in_buf.pBuffer; the freed record is no longer
reachable, modelled by dropping it. -/
def free_buffer (st : SvtContext) : SvtContext × List EncEvent :=
  ({ st with in_buf := { st.in_buf with pBuffer := none } }, [.freeInputBuffer])

/-- result of eb_enc_close. -/
structure CloseOut where
  ret : Int
  st : SvtContext
  events : List EncEvent
deriving DecidableEq, Repr

/-- eb_enc_close from the C source: frees the input scratch buffer, then
deinitializes the encoder and its handle when the handle is non-NULL, and
returns 0.  The metadata cache is not touched. -/
def eb_enc_close (st : SvtContext) : CloseOut :=
  let fb := free_buffer st
  if st.svt_handle then
    { ret := 0
      st := { fb.1 with svt_handle := false }
      events := fb.2 ++ [.deinitEncoder, .deinitHandle] }
  else
    { ret := 0, st := fb.1, events := fb.2 }

/-- the in_buf produced by alloc_buffer: zeroed header, slice type
EB_INVALID_PICTURE, pBuffer pointing at a zeroed scratch record. -/
def alloc_in_buf : InBuf :=
  { nAllocLen := 0
    nFilledLen := 0
    nTickCount := 0
    pBuffer := some { luma := none, cb := none, cr := none, yStride := 0, cbStride := 0, crStride := 0 }
    nFlags := 0
    pts := 0
    sliceType := .EB_INVALID_PICTURE }

/-- the adapter state after a successful eb_enc_init: flush state
EOS_NOT_REACHED, a live handle, the freshly allocated input buffer and an
empty metadata cache (INIT_LIST_HEAD). -/
def initState (params : EncParams) : SvtContext :=
  { enc_params := params
    svt_handle := true
    in_buf := alloc_in_buf
    eos_flag := .EOS_NOT_REACHED
    list := [] }

/-- run a sequence of eb_encode_frame calls, keeping only the state. -/
def runSt (st : SvtContext) (cs : List Call) : SvtContext :=
  cs.foldl (fun s c => (eb_encode_frame s c).st) st

/-- run a sequence of eb_encode_frame calls, accumulating the event log. -/
def runLog : SvtContext → List Call → SvtContext × List EncEvent
  | st, [] => (st, [])
  | st, c :: cs =>
    let r := eb_encode_frame st c
    let rest := runLog r.st cs
    (rest.1, r.events ++ rest.2)

/-- the real frames submitted by a call sequence, in order. -/
def framesOf (cs : List Call) : List AVFrame :=
  cs.filterMap Call.frame

/-- the timestamps of the submitted real frames, in order. -/
def subPts (cs : List Call) : List Int :=
  (framesOf cs).map AVFrame.pts

/-- the packet timestamp an oracle poll would deliver, if any. -/
def pollPtsOf (c : Call) : Option Int :=
  match c.poll with
  | .pkt d => some d.pts
  | .emptyQueue => none

/-- the timestamps of all descriptors the oracle offers, in order. -/
def pollPts (cs : List Call) : List Int :=
  cs.filterMap pollPtsOf

/-- recognizer of the EOS sentinel submission event: a sent input
descriptor with zero filled length, NULL data and the EOS flag set. -/
def isSentinelSend : EncEvent → Bool
  | .sendPicture b => decide (b.nFilledLen = 0 ∧ b.pBuffer = none ∧ b.nFlags = EB_BUFFERFLAG_EOS)
  | _ => false

/-- number of EOS sentinel submissions in an event log. -/
def sentinelCount (evs : List EncEvent) : Nat :=
  evs.countP isSentinelSend

/-- a call submitting a real frame while the encoder queue is empty. -/
def frameCall (f : AVFrame) : Call :=
  { frame := some f, sendRet := .EB_ErrorNone, poll := .emptyQueue }

/-- concrete 8-bit 4:2:0 configuration (sourceWidth 4, sourceHeight 2). -/
def cfg420 : EncParams :=
  { sourceWidth := 4, sourceHeight := 2, encoderBitDepth := 8, encoderColorFormat := .EB_YUV420 }

/-- the 10-bit variant of cfg420. -/
def cfg420hbd : EncParams := { cfg420 with encoderBitDepth := 10 }

/-- the 4:2:2 variant of cfg420. -/
def cfg422 : EncParams := { cfg420 with encoderColorFormat := .EB_YUV422 }

/-- the 4:4:4 variant of cfg420. -/
def cfg444 : EncParams := { cfg420 with encoderColorFormat := .EB_YUV444 }

/-- concrete frame without metadata, luma stride 64. -/
def planeFrame : AVFrame :=
  { pts := 0, data0 := 11, data1 := 12, data2 := 13,
    linesize0 := 64, linesize1 := 32, linesize2 := 32, metadata := none }

/-- concrete frame carrying a three byte metadata blob at pts 42. -/
def metaFrame : AVFrame :=
  { pts := 42, data0 := 1, data1 := 2, data2 := 3,
    linesize0 := 4, linesize1 := 2, linesize2 := 2, metadata := some [9, 9, 9] }

/-- concrete output descriptor at pts 7 without the EOS flag. -/
def outDesc : OutBuf :=
  { nFilledLen := 3, pBuffer := [10, 20, 30], pts := 7, dts := 5,
    sliceType := .EB_IDR_PICTURE, nFlags := 0 }

/-- concrete EOS-flagged output descriptor. -/
def outDescEos : OutBuf :=
  { nFilledLen := 2, pBuffer := [1, 2], pts := 9, dts := 9,
    sliceType := .EB_NON_REF_PICTURE, nFlags := EB_BUFFERFLAG_EOS }

/-- a state in flush state EOS_RECEIVED. -/
def recvState : SvtContext := { initState cfg420 with eos_flag := .EOS_RECEIVED }

/-- concrete pending cache entry at pts 5. -/
def leakEntry : EB_FRAMEMETADATA := { pts := 5, metadata := some [1, 2], size := 2 }

/-- a state holding one pending cache entry. -/
def leakState : SvtContext := { initState cfg420 with list := [leakEntry] }

/-- a state already holding a cache entry at pts 42, the pts of metaFrame. -/
def dupState : SvtContext :=
  { initState cfg420 with list := [{ pts := 42, metadata := some [1], size := 1 }] }

/-- the end-of-input call with an empty poll. -/
def eosCall0 : Call := { frame := none, sendRet := .EB_ErrorNone, poll := .emptyQueue }

/-- output descriptor whose pts matches metaFrame. -/
def corrDesc : OutBuf :=
  { nFilledLen := 2, pBuffer := [5, 6], pts := 42, dts := 42,
    sliceType := .EB_I_PICTURE, nFlags := 0 }

/-- call submitting metaFrame while the encoder delivers the packet of the
same pts in the same call. -/
def corrCall : Call := { frame := some metaFrame, sendRet := .EB_ErrorNone, poll := .pkt corrDesc }

/-- the packet corrCall produces. -/
def corrPkt : Packet :=
  { data := [5, 6], size := 2, pts := 42, dts := 42,
    flagKey := true, flagDisposable := false, sideData := some [9, 9, 9] }

/-! ## Basic lemmas about the two halves and single calls -/

lemma prependEvents_ret (evs : List EncEvent) (r : StepOut) : (prependEvents evs r).ret = r.ret := rfl

lemma prependEvents_pkt (evs : List EncEvent) (r : StepOut) : (prependEvents evs r).pkt = r.pkt := rfl

lemma prependEvents_st (evs : List EncEvent) (r : StepOut) : (prependEvents evs r).st = r.st := rfl

lemma prependEvents_events (evs : List EncEvent) (r : StepOut) :
    (prependEvents evs r).events = evs ++ r.events := rfl

lemma step_received {st : SvtContext} (c : Call) (h : st.eos_flag = .EOS_RECEIVED) :
    eb_encode_frame st c = { ret := 0, gotPacket := false, pkt := none, st := st, events := [] } := by
  simp [eb_encode_frame, h]

lemma gp_empty (st : SvtContext) :
    get_packet_phase st .emptyQueue =
      { ret := 0, gotPacket := false, pkt := none, st := st, events := [.getPacket st.eos_flag] } := rfl

lemma gp_pkt (st : SvtContext) (d : OutBuf) :
    get_packet_phase st (.pkt d) =
      { ret := 0
        gotPacket := true
        pkt := some
          { data := d.pBuffer.take d.nFilledLen
            size := d.nFilledLen
            pts := d.pts
            dts := d.dts
            flagKey := decide (d.sliceType = .EB_IDR_PICTURE ∨ d.sliceType = .EB_I_PICTURE)
            flagDisposable := decide (d.sliceType = .EB_NON_REF_PICTURE)
            sideData := (attach_metadata st.list d.pts).2 }
        st := { st with
          list := (attach_metadata st.list d.pts).1
          eos_flag := if d.nFlags = EB_BUFFERFLAG_EOS then .EOS_RECEIVED else st.eos_flag }
        events :=
          [.getPacket st.eos_flag, .readOut .fPts, .readOut .fFilledLen,
           .readOut .fBuffer, .readOut .fFilledLen, .copyPayload,
           .readOut .fFilledLen, .readOut .fPts, .readOut .fDts,
           .readOut .fSliceType, .releaseOut, .readOut .fFlags] } := rfl

lemma step_no_early {st : SvtContext} {c : Call} (h : st.eos_flag ≠ .EOS_RECEIVED)
    (he : (submit_phase st c.frame).earlyReturn = false) :
    eb_encode_frame st c =
      prependEvents (submit_phase st c.frame).events
        (get_packet_phase (submit_phase st c.frame).st c.poll) := by
  simp [eb_encode_frame, h, he]

lemma step_early {st : SvtContext} {c : Call} (h : st.eos_flag ≠ .EOS_RECEIVED)
    (he : (submit_phase st c.frame).earlyReturn = true) :
    eb_encode_frame st c =
      { ret := 0, gotPacket := false, pkt := none,
        st := (submit_phase st c.frame).st, events := (submit_phase st c.frame).events } := by
  simp [eb_encode_frame, h, he]

/-- case analysis of what the submission half does to the metadata cache. -/
lemma submit_list_cases (st : SvtContext) (fr : Option AVFrame) :
    (submit_phase st fr).st.list = st.list ∨
      ∃ f dict, fr = some f ∧ f.metadata = some dict ∧
        has_pts_entry st.list f.pts = false ∧
        (submit_phase st fr).st.list =
          st.list ++ [{ pts := f.pts, metadata := some dict, size := dict.length }] := by
  cases fr with
  | none =>
      left
      simp only [submit_phase]
      split <;> rfl
  | some f =>
      cases hm : f.metadata with
      | none => left; simp [submit_phase, hm]
      | some dict =>
          by_cases hd : has_pts_entry st.list f.pts
          · left; simp [submit_phase, hm, hd]
          · right
            refine ⟨f, dict, rfl, hm, by simpa using hd, ?_⟩
            simp [submit_phase, hm, hd]

lemma submit_list_mono {st : SvtContext} {fr : Option AVFrame} {p : EB_FRAMEMETADATA}
    (hp : p ∈ st.list) : p ∈ (submit_phase st fr).st.list := by
  rcases submit_list_cases st fr with h | ⟨f, dict, _, _, _, h⟩
  · rw [h]; exact hp
  · rw [h]; exact List.mem_append_left _ hp

lemma submit_eos_cases (st : SvtContext) (fr : Option AVFrame) :
    (submit_phase st fr).st.eos_flag = st.eos_flag ∨
      (st.eos_flag = .EOS_NOT_REACHED ∧ (submit_phase st fr).st.eos_flag = .EOS_SENT) := by
  cases fr with
  | none =>
      by_cases h : st.eos_flag = .EOS_NOT_REACHED
      · right; exact ⟨h, by simp [submit_phase, h]⟩
      · left; simp [submit_phase, h]
  | some f =>
      left
      cases hm : f.metadata with
      | none => simp [submit_phase, hm]
      | some dict =>
          by_cases hd : has_pts_entry st.list f.pts <;> simp [submit_phase, hm, hd]

lemma submit_eos_some {st : SvtContext} {f : AVFrame} :
    (submit_phase st (some f)).st.eos_flag = st.eos_flag := by
  cases hm : f.metadata with
  | none => simp [submit_phase, hm]
  | some dict =>
      by_cases hd : has_pts_entry st.list f.pts <;> simp [submit_phase, hm, hd]

lemma submit_params (st : SvtContext) (fr : Option AVFrame) :
    (submit_phase st fr).st.enc_params = st.enc_params := by
  cases fr with
  | none =>
      by_cases h : st.eos_flag = .EOS_NOT_REACHED <;> simp [submit_phase, h]
  | some f =>
      cases hm : f.metadata with
      | none => simp [submit_phase, hm]
      | some dict =>
          by_cases hd : has_pts_entry st.list f.pts <;> simp [submit_phase, hm, hd]

lemma submit_early_list {st : SvtContext} {fr : Option AVFrame}
    (he : (submit_phase st fr).earlyReturn = true) : (submit_phase st fr).st.list = st.list := by
  cases fr with
  | none =>
      by_cases h : st.eos_flag = .EOS_NOT_REACHED <;> simp [submit_phase, h]
  | some f =>
      cases hm : f.metadata with
      | none => simp [submit_phase, hm]
      | some dict =>
          by_cases hd : has_pts_entry st.list f.pts
          · simp [submit_phase, hm, hd]
          · exfalso
            simp [submit_phase, hm, hd] at he

/-! ## Lemmas about the metadata correlation scan -/

lemma attach_subset {l : List EB_FRAMEMETADATA} {t : Int} {q : EB_FRAMEMETADATA}
    (hq : q ∈ (attach_metadata l t).1) : q ∈ l := by
  induction l with
  | nil => simpa [attach_metadata] using hq
  | cons p rest ih =>
      by_cases hp : p.pts = t
      · cases hm : p.metadata with
        | none =>
            simp [attach_metadata, hp, hm] at hq
            simpa using hq
        | some m =>
            by_cases hs : 0 < p.size
            · simp [attach_metadata, hp, hm, hs] at hq
              exact List.mem_cons_of_mem _ hq
            · simp [attach_metadata, hp, hm, hs] at hq
              simpa using hq
      · simp [attach_metadata, hp] at hq
        rcases hq with hq | hq
        · simp [hq]
        · exact List.mem_cons_of_mem _ (ih hq)

lemma attach_mem_of_ne {l : List EB_FRAMEMETADATA} {t : Int} {p : EB_FRAMEMETADATA}
    (hp : p ∈ l) (hne : p.pts ≠ t) : p ∈ (attach_metadata l t).1 := by
  induction l with
  | nil => simpa using hp
  | cons q rest ih =>
      rcases List.mem_cons.1 hp with rfl | hp
      · by_cases hq : p.pts = t
        · exact absurd hq hne
        · simp [attach_metadata, hq]
      · by_cases hq : q.pts = t
        · cases hm : q.metadata with
          | none => simp [attach_metadata, hq, hm]; exact Or.inr hp
          | some m =>
              by_cases hs : 0 < q.size
              · simp [attach_metadata, hq, hm, hs]; exact hp
              · simp [attach_metadata, hq, hm, hs]; exact Or.inr hp
        · simp [attach_metadata, hq]
          exact Or.inr (ih hp)

lemma attach_map_sublist (l : List EB_FRAMEMETADATA) (t : Int) :
    ((attach_metadata l t).1.map EB_FRAMEMETADATA.pts).Sublist
      (l.map EB_FRAMEMETADATA.pts) := by
  induction l with
  | nil => simp [attach_metadata]
  | cons p rest ih =>
      by_cases hp : p.pts = t
      · cases hm : p.metadata with
        | none => simp [attach_metadata, hp, hm]
        | some m =>
            by_cases hs : 0 < p.size
            · simp only [attach_metadata, hp, if_pos, hm, hs, if_true, List.map_cons]
              simpa using List.sublist_cons_self p.pts (rest.map EB_FRAMEMETADATA.pts)
            · simp [attach_metadata, hp, hm, hs]
      · simp only [attach_metadata, hp, if_neg, List.map_cons, ite_false]
        exact List.Sublist.cons₂ _ ih

lemma attach_unique {l : List EB_FRAMEMETADATA} {t : Int} {e : EB_FRAMEMETADATA} {b : List Nat}
    (hnd : (l.map EB_FRAMEMETADATA.pts).Nodup) (he : e ∈ l) (ht : e.pts = t)
    (hm : e.metadata = some b) (hs : e.size = b.length) (hb : b ≠ []) :
    (attach_metadata l t).2 = some b ∧ ∀ q ∈ (attach_metadata l t).1, q.pts ≠ t := by
  induction l with
  | nil => simp at he
  | cons p rest ih =>
      have hnd' : (rest.map EB_FRAMEMETADATA.pts).Nodup := (List.nodup_cons.1 hnd).2
      have hpn : p.pts ∉ rest.map EB_FRAMEMETADATA.pts := (List.nodup_cons.1 hnd).1
      by_cases hp : p.pts = t
      · have hpe : p = e := by
          rcases List.mem_cons.1 he with rfl | hemem
          · rfl
          · exfalso
            exact hpn (by rw [hp, ← ht]; exact List.mem_map_of_mem _ hemem)
        subst hpe
        have hlen : 0 < b.length := List.length_pos.2 hb
        have hlen2 : 0 < p.size := by rw [hs]; exact hlen
        refine ⟨?_, ?_⟩
        · simp [attach_metadata, hp, hm, hs, hlen, List.take_length]
        · intro q hq hqt
          simp [attach_metadata, hp, hm, hs, hlen] at hq
          exact hpn (by rw [hp, ← hqt]; exact List.mem_map_of_mem _ hq)
      · have hemem : e ∈ rest := by
          rcases List.mem_cons.1 he with rfl | hemem
          · exact absurd ht hp
          · exact hemem
        have := ih hnd' hemem
        refine ⟨?_, ?_⟩
        · simpa [attach_metadata, hp] using this.1
        · intro q hq
          simp [attach_metadata, hp] at hq
          rcases hq with rfl | hq
          · exact hp
          · exact this.2 q hq

/-! ## Step level characterizations -/

lemma gp_params (st : SvtContext) (poll : PollResult) :
    (get_packet_phase st poll).st.enc_params = st.enc_params := by
  cases poll with
  | emptyQueue => rfl
  | pkt d => rfl

lemma gp_eos_cases (st : SvtContext) (poll : PollResult) :
    (get_packet_phase st poll).st.eos_flag = st.eos_flag ∨
      (get_packet_phase st poll).st.eos_flag = .EOS_RECEIVED := by
  cases poll with
  | emptyQueue => left; rfl
  | pkt d =>
      by_cases h : d.nFlags = EB_BUFFERFLAG_EOS
      · right; simp [gp_pkt, h]
      · left; simp [gp_pkt, h]

lemma step_eos_cases (st : SvtContext) (c : Call) :
    (eb_encode_frame st c).st.eos_flag = st.eos_flag ∨
      (st.eos_flag = .EOS_NOT_REACHED ∧ (eb_encode_frame st c).st.eos_flag = .EOS_SENT) ∨
      (eb_encode_frame st c).st.eos_flag = .EOS_RECEIVED := by
  by_cases h : st.eos_flag = .EOS_RECEIVED
  · left; rw [step_received c h]
  · by_cases he : (submit_phase st c.frame).earlyReturn
    · rw [step_early h he]
      rcases submit_eos_cases st c.frame with h1 | ⟨h1, h2⟩
      · left; exact h1
      · right; left; exact ⟨h1, h2⟩
    · rw [step_no_early h (by simpa using he), prependEvents_st]
      rcases gp_eos_cases (submit_phase st c.frame).st c.poll with h1 | h1
      · rw [h1]
        rcases submit_eos_cases st c.frame with h2 | ⟨h2, h3⟩
        · left; exact h2
        · right; left; exact ⟨h2, h3⟩
      · right; right; exact h1

lemma eosRank_le_two (s : EOS_STATUS) : eosRank s ≤ 2 := by
  cases s <;> simp [eosRank]

lemma step_rank_mono (st : SvtContext) (c : Call) :
    eosRank st.eos_flag ≤ eosRank (eb_encode_frame st c).st.eos_flag := by
  rcases step_eos_cases st c with h | ⟨h1, h2⟩ | h
  · rw [h]
  · rw [h1, h2]; simp [eosRank]
  · rw [h]; exact eosRank_le_two _

lemma step_params (st : SvtContext) (c : Call) :
    (eb_encode_frame st c).st.enc_params = st.enc_params := by
  by_cases h : st.eos_flag = .EOS_RECEIVED
  · rw [step_received c h]
  · by_cases he : (submit_phase st c.frame).earlyReturn
    · rw [step_early h he]; exact submit_params st c.frame
    · rw [step_no_early h (by simpa using he), prependEvents_st, gp_params]
      exact submit_params st c.frame

lemma submit_mem_cases {st : SvtContext} {fr : Option AVFrame} {q : EB_FRAMEMETADATA}
    (hq : q ∈ (submit_phase st fr).st.list) :
    q ∈ st.list ∨ ∃ f dict, fr = some f ∧ f.metadata = some dict ∧
      q = { pts := f.pts, metadata := some dict, size := dict.length } := by
  rcases submit_list_cases st fr with hl | ⟨f, dict, hfr, hm, _, hl⟩
  · rw [hl] at hq; left; exact hq
  · rw [hl] at hq
    rcases List.mem_append.1 hq with hq | hq
    · left; exact hq
    · right; exact ⟨f, dict, hfr, hm, by simpa using hq⟩

lemma step_list_cases {st : SvtContext} {c : Call} {q : EB_FRAMEMETADATA}
    (hq : q ∈ (eb_encode_frame st c).st.list) :
    q ∈ st.list ∨ ∃ f dict, c.frame = some f ∧ f.metadata = some dict ∧
      q = { pts := f.pts, metadata := some dict, size := dict.length } := by
  by_cases h : st.eos_flag = .EOS_RECEIVED
  · rw [step_received c h] at hq; left; exact hq
  · by_cases he : (submit_phase st c.frame).earlyReturn
    · rw [step_early h he] at hq
      exact submit_mem_cases hq
    · rw [step_no_early h (by simpa using he), prependEvents_st] at hq
      cases hc : c.poll with
      | emptyQueue =>
          rw [hc, gp_empty] at hq
          exact submit_mem_cases hq
      | pkt d =>
          rw [hc] at hq
          simp only [gp_pkt] at hq
          exact submit_mem_cases (attach_subset hq)

lemma step_mem_list {st : SvtContext} {c : Call} {p : EB_FRAMEMETADATA} (hp : p ∈ st.list)
    (hd : ∀ d, c.poll = .pkt d → d.pts ≠ p.pts) : p ∈ (eb_encode_frame st c).st.list := by
  by_cases h : st.eos_flag = .EOS_RECEIVED
  · rw [step_received c h]; exact hp
  · have hsub : p ∈ (submit_phase st c.frame).st.list := submit_list_mono hp
    by_cases he : (submit_phase st c.frame).earlyReturn
    · rw [step_early h he]; exact hsub
    · rw [step_no_early h (by simpa using he), prependEvents_st]
      cases hc : c.poll with
      | emptyQueue => rw [gp_empty]; exact hsub
      | pkt d =>
          simp only [gp_pkt]
          exact attach_mem_of_ne hsub (fun hpd => hd d hc hpd.symm)

lemma has_pts_entry_false_iff (l : List EB_FRAMEMETADATA) (t : Int) :
    has_pts_entry l t = false ↔ ∀ p ∈ l, p.pts ≠ t := by
  simp [has_pts_entry]

lemma submit_nodup {st : SvtContext} {fr : Option AVFrame}
    (h : (st.list.map EB_FRAMEMETADATA.pts).Nodup) :
    ((submit_phase st fr).st.list.map EB_FRAMEMETADATA.pts).Nodup := by
  rcases submit_list_cases st fr with hl | ⟨f, dict, hfr, hm, hd, hl⟩
  · rw [hl]; exact h
  · rw [hl]
    have hfresh : f.pts ∉ st.list.map EB_FRAMEMETADATA.pts := by
      intro hmem
      rcases List.mem_map.1 hmem with ⟨p, hp, hpp⟩
      exact ((has_pts_entry_false_iff st.list f.pts).1 hd) p hp hpp
    rw [List.map_append]
    refine List.Nodup.append h (by simp) ?_
    intro a ha hb
    simp at hb
    rw [hb] at ha
    exact hfresh ha

lemma step_nodup {st : SvtContext} {c : Call}
    (h : (st.list.map EB_FRAMEMETADATA.pts).Nodup) :
    (((eb_encode_frame st c).st.list).map EB_FRAMEMETADATA.pts).Nodup := by
  by_cases hr : st.eos_flag = .EOS_RECEIVED
  · rw [step_received c hr]; exact h
  · by_cases he : (submit_phase st c.frame).earlyReturn
    · rw [step_early hr he, submit_early_list he]; exact h
    · rw [step_no_early hr (by simpa using he), prependEvents_st]
      cases hc : c.poll with
      | emptyQueue => rw [gp_empty]; exact submit_nodup h
      | pkt d =>
          simp only [gp_pkt]
          exact List.Nodup.sublist (attach_map_sublist _ _) (submit_nodup h)

/-! ## Run level lemmas -/

lemma runSt_nil (st : SvtContext) : runSt st [] = st := rfl

lemma runSt_cons (st : SvtContext) (c : Call) (cs : List Call) :
    runSt st (c :: cs) = runSt (eb_encode_frame st c).st cs := rfl

lemma runSt_append (st : SvtContext) (l1 l2 : List Call) :
    runSt st (l1 ++ l2) = runSt (runSt st l1) l2 := by
  simp [runSt, List.foldl_append]

lemma run_received {st : SvtContext} (cs : List Call) (h : st.eos_flag = .EOS_RECEIVED) :
    runSt st cs = st := by
  induction cs with
  | nil => rfl
  | cons c cs ih =>
      rw [runSt_cons, step_received c h]
      exact ih

lemma run_rank_mono (st : SvtContext) (cs : List Call) :
    eosRank st.eos_flag ≤ eosRank (runSt st cs).eos_flag := by
  induction cs generalizing st with
  | nil => simp [runSt_nil]
  | cons c cs ih =>
      rw [runSt_cons]
      exact le_trans (step_rank_mono st c) (ih _)

lemma run_params (st : SvtContext) (cs : List Call) :
    (runSt st cs).enc_params = st.enc_params := by
  induction cs generalizing st with
  | nil => rfl
  | cons c cs ih =>
      rw [runSt_cons, ih, step_params]

lemma run_not_received {st : SvtContext} {cs : List Call}
    (h : (runSt st cs).eos_flag ≠ .EOS_RECEIVED) : st.eos_flag ≠ .EOS_RECEIVED := by
  intro hr
  exact h (by rw [run_received cs hr, hr])

lemma run_nodup {st : SvtContext} (cs : List Call)
    (h : (st.list.map EB_FRAMEMETADATA.pts).Nodup) :
    (((runSt st cs).list).map EB_FRAMEMETADATA.pts).Nodup := by
  induction cs generalizing st with
  | nil => exact h
  | cons c cs ih =>
      rw [runSt_cons]
      exact ih (step_nodup h)

lemma framesOf_nil : framesOf [] = [] := rfl

lemma framesOf_cons (c : Call) (cs : List Call) :
    framesOf (c :: cs) = c.frame.toList ++ framesOf cs := by
  cases hc : c.frame <;> simp [framesOf, hc]

lemma framesOf_append (l1 l2 : List Call) :
    framesOf (l1 ++ l2) = framesOf l1 ++ framesOf l2 := by
  simp [framesOf, List.filterMap_append]

lemma subPts_cons (c : Call) (cs : List Call) :
    subPts (c :: cs) = (c.frame.toList.map AVFrame.pts) ++ subPts cs := by
  simp [subPts, framesOf_cons]

lemma subPts_append (l1 l2 : List Call) :
    subPts (l1 ++ l2) = subPts l1 ++ subPts l2 := by
  simp [subPts, framesOf_append]

lemma pollPts_cons (c : Call) (cs : List Call) :
    pollPts (c :: cs) = (pollPtsOf c).toList ++ pollPts cs := by
  cases hc : pollPtsOf c <;> simp [pollPts, List.filterMap_cons, hc]

lemma pollPts_append (l1 l2 : List Call) :
    pollPts (l1 ++ l2) = pollPts l1 ++ pollPts l2 := by
  simp [pollPts, List.filterMap_append]

lemma run_mem_list {st : SvtContext} {cs : List Call} {p : EB_FRAMEMETADATA} (hp : p ∈ st.list)
    (hd : ∀ c ∈ cs, ∀ d, c.poll = .pkt d → d.pts ≠ p.pts) : p ∈ (runSt st cs).list := by
  induction cs generalizing st with
  | nil => exact hp
  | cons c cs ih =>
      rw [runSt_cons]
      refine ih (step_mem_list hp (hd c (by simp))) ?_
      intro c2 hc2 d hd2
      exact hd c2 (List.mem_cons_of_mem _ hc2) d hd2

lemma run_pts_sub {st : SvtContext} {cs : List Call} {q : EB_FRAMEMETADATA}
    (hq : q ∈ (runSt st cs).list) : q ∈ st.list ∨ q.pts ∈ subPts cs := by
  induction cs generalizing st with
  | nil => left; exact hq
  | cons c cs ih =>
      rw [runSt_cons] at hq
      rcases ih hq with h | h
      · rcases step_list_cases h with h2 | ⟨f, dict, hfr, _, rfl⟩
        · left; exact h2
        · right
          rw [subPts_cons, hfr]
          simp
      · right
        rw [subPts_cons]
        exact List.mem_append_right _ h

/-! ## Further helper lemmas for the claims -/

lemma step_empty_ret {st : SvtContext} {c : Call} (h : c.poll = .emptyQueue) :
    (eb_encode_frame st c).ret = 0 ∧ (eb_encode_frame st c).pkt = none := by
  by_cases hr : st.eos_flag = .EOS_RECEIVED
  · rw [step_received c hr]; exact ⟨rfl, rfl⟩
  · by_cases he : (submit_phase st c.frame).earlyReturn
    · rw [step_early hr he]; exact ⟨rfl, rfl⟩
    · rw [step_no_early hr (by simpa using he), h]
      exact ⟨rfl, rfl⟩

lemma read_in_data_len (config : EncParams) (f : AVFrame) (h : InBuf) :
    (read_in_data config f h).nFilledLen = h.nFilledLen + frame_size_of config := rfl

lemma submit_some_in_buf (st : SvtContext) (f : AVFrame) :
    (submit_phase st (some f)).st.in_buf =
      { read_in_data st.enc_params f st.in_buf with pts := f.pts } := by
  cases hm : f.metadata with
  | none => simp [submit_phase, hm]
  | some dict => by_cases hd : has_pts_entry st.list f.pts <;> simp [submit_phase, hm, hd]

lemma step_frame_empty (st : SvtContext) (f : AVFrame) (h : st.eos_flag ≠ .EOS_RECEIVED) :
    (eb_encode_frame st (frameCall f)).st.in_buf.nFilledLen =
        st.in_buf.nFilledLen + frame_size_of st.enc_params ∧
      (eb_encode_frame st (frameCall f)).st.eos_flag = st.eos_flag := by
  have hin : (submit_phase st (frameCall f).frame).st.in_buf =
      { read_in_data st.enc_params f st.in_buf with pts := f.pts } := submit_some_in_buf st f
  have heq : (eb_encode_frame st (frameCall f)).st = (submit_phase st (frameCall f).frame).st := by
    by_cases he : (submit_phase st (frameCall f).frame).earlyReturn
    · rw [step_early h he]
    · rw [step_no_early h (by simpa using he), prependEvents_st]
      rfl
  rw [heq, hin]
  constructor
  · rw [read_in_data_len]
  · show (submit_phase st (some f)).st.eos_flag = st.eos_flag
    exact submit_eos_some

lemma run_frames_filled (st : SvtContext) (fs : List AVFrame) (h : st.eos_flag = .EOS_NOT_REACHED) :
    (runSt st (fs.map frameCall)).in_buf.nFilledLen =
        st.in_buf.nFilledLen + fs.length * frame_size_of st.enc_params ∧
      (runSt st (fs.map frameCall)).eos_flag = .EOS_NOT_REACHED := by
  induction fs generalizing st with
  | nil => simp [runSt_nil, h]
  | cons f fs ih =>
      have hne : st.eos_flag ≠ .EOS_RECEIVED := by rw [h]; simp
      obtain ⟨h1, h2⟩ := step_frame_empty st f hne
      obtain ⟨ih1, ih2⟩ := ih ((eb_encode_frame st (frameCall f)).st) (by rw [h2, h])
      rw [List.map_cons, runSt_cons]
      refine ⟨?_, ih2⟩
      rw [ih1, h1, step_params, List.length_cons]
      ring

/-! ## Claim theorems -/

/-- C4: whenever the flush state is EOS_RECEIVED, a call to eb_encode_frame
returns 0 with got_packet = 0 immediately, performs no encoder interaction
(empty event list, so in particular no poll), and leaves the adapter state
exactly as it was. -/
theorem c4_received_noop (st : SvtContext) (c : Call) (h : st.eos_flag = .EOS_RECEIVED) :
    eb_encode_frame st c =
      { ret := 0, gotPacket := false, pkt := none, st := st, events := [] } :=
  step_received c h

/-- witness for C4 at a concrete received state and a concrete call. -/
theorem c4_received_noop_witness :
    recvState.eos_flag = .EOS_RECEIVED ∧
      eb_encode_frame recvState (frameCall metaFrame) =
        { ret := 0, gotPacket := false, pkt := none, st := recvState, events := [] } :=
  ⟨rfl, c4_received_noop recvState (frameCall metaFrame) rfl⟩

/-- C8: when the poll yields the empty-queue status the call returns 0 (a
success, never a hard failure) with no packet; the retrieval half leaves
the whole adapter state (flush state and metadata cache included)
untouched and performs only the poll; and error_mapping sends the
empty-queue status to AVERROR(EAGAIN), the retry code, not to a hard
failure. -/
theorem c8_empty_queue_is_success (st : SvtContext) (c : Call) (h : c.poll = .emptyQueue) :
    (eb_encode_frame st c).ret = 0 ∧ (eb_encode_frame st c).pkt = none ∧
      (get_packet_phase st .emptyQueue).st = st ∧
      (get_packet_phase st .emptyQueue).ret = 0 ∧
      (get_packet_phase st .emptyQueue).pkt = none ∧
      (get_packet_phase st .emptyQueue).events = [.getPacket st.eos_flag] ∧
      error_mapping .EB_NoErrorEmptyQueue = AVERROR EAGAIN :=
  ⟨(step_empty_ret h).1, (step_empty_ret h).2, rfl, rfl, rfl, rfl, rfl⟩

/-- witness for C8 at a concrete state and call. -/
theorem c8_empty_queue_is_success_witness :
    (frameCall planeFrame).poll = .emptyQueue ∧
      (eb_encode_frame (initState cfg420) (frameCall planeFrame)).ret = 0 ∧
      (get_packet_phase (initState cfg420) .emptyQueue).st = initState cfg420 :=
  ⟨rfl, (c8_empty_queue_is_success (initState cfg420) (frameCall planeFrame) rfl).1,
    (c8_empty_queue_is_success (initState cfg420) (frameCall planeFrame) rfl).2.2.1⟩

/-- C9 counterexample: eb_enc_close called on a state holding one pending
metadata cache entry returns with the cache still containing that entry,
so close does not release the metadata cache and the cache is not empty
when close returns. -/
theorem c9_close_leaves_cache_cex :
    (eb_enc_close leakState).st.list = [leakEntry] ∧ (eb_enc_close leakState).st.list ≠ [] := by
  decide

/-- C9 amended: closing is permitted at every flush state and returns 0; it
frees the input descriptor scratch buffer (and emits the free event), but
the metadata cache entries are NOT released: the cache is returned
unchanged, so unmatched pending entries leak. -/
theorem c9_close_frees_input_not_cache (st : SvtContext) :
    (eb_enc_close st).ret = 0 ∧
      (eb_enc_close st).st.in_buf.pBuffer = none ∧
      EncEvent.freeInputBuffer ∈ (eb_enc_close st).events ∧
      (eb_enc_close st).st.list = st.list := by
  by_cases h : st.svt_handle <;> simp [eb_enc_close, free_buffer, h]

/-- C5 evaluation at the failing input: for an 8-bit 4:2:0 configuration
with sourceWidth 4 and sourceHeight 2 the code adds 8 = width times height
to nFilledLen, not the 12 = width times height times 1.5 the claim states,
because the C expression frame_size *= 3/2u divides in unsigned arithmetic;
the 4:2:2 and 4:4:4 factors and the 16-bit doubling and stride halving do
behave as claimed. -/
theorem c5_frame_size_bug :
    (read_in_data cfg420 planeFrame alloc_in_buf).nFilledLen = 8 ∧
      (8 : Nat) ≠ 12 ∧
      (read_in_data cfg422 planeFrame alloc_in_buf).nFilledLen = 16 ∧
      (read_in_data cfg444 planeFrame alloc_in_buf).nFilledLen = 24 ∧
      (read_in_data cfg420hbd planeFrame alloc_in_buf).nFilledLen = 16 ∧
      ((read_in_data cfg420hbd planeFrame alloc_in_buf).pBuffer.map EB_H265_ENC_INPUT.yStride)
        = some 32 ∧
      ((read_in_data cfg420 planeFrame alloc_in_buf).pBuffer.map EB_H265_ENC_INPUT.yStride)
        = some 64 := by
  decide

/-- C6 evaluation: in a fetch that obtains a descriptor the event trace
releases the descriptor exactly once and copies the payload before the
release, but the very next event after the release is a read of the
descriptor nFlags field, so the release is not free of later field
reads. -/
theorem c6_release_then_flag_read :
    ((get_packet_phase (initState cfg420) (.pkt outDesc)).events.count EncEvent.releaseOut = 1) ∧
      EncEvent.copyPayload ∈
        (get_packet_phase (initState cfg420) (.pkt outDesc)).events.takeWhile
          (fun e => e ≠ EncEvent.releaseOut) ∧
      (get_packet_phase (initState cfg420) (.pkt outDesc)).events.dropWhile
          (fun e => e ≠ EncEvent.releaseOut)
        = [EncEvent.releaseOut, EncEvent.readOut OutField.fFlags] := by
  decide

/-- C7 counterexample: the encoder reports EB_ErrorBadParameter while the
picture is submitted, yet eb_encode_frame returns 0 and not the mapped
error AVERROR(EINVAL) = -22: the submission status is not surfaced to the
caller. -/
theorem c7_submit_failure_not_surfaced_cex :
    (eb_encode_frame (initState cfg420)
        { frame := some metaFrame, sendRet := .EB_ErrorBadParameter, poll := .emptyQueue }).ret
        = 0 ∧
      error_mapping .EB_ErrorBadParameter = -22 ∧
      (eb_encode_frame (initState cfg420)
          { frame := some metaFrame, sendRet := .EB_ErrorBadParameter, poll := .emptyQueue }).ret
        ≠ error_mapping .EB_ErrorBadParameter := by
  decide

/-- C7 amended: the status EbH265EncSendPicture returns is discarded, so
the whole call result is independent of it, and the metadata cache entry
created for a metadata-bearing frame is retained regardless of that status
(no rollback on submission failure). -/
theorem c7_submit_status_ignored_entry_retained :
    (∀ (st : SvtContext) (fr : Option AVFrame) (r1 r2 : EB_ERRORTYPE) (p : PollResult),
        eb_encode_frame st { frame := fr, sendRet := r1, poll := p }
          = eb_encode_frame st { frame := fr, sendRet := r2, poll := p }) ∧
      (∀ (st : SvtContext) (f : AVFrame) (dict : List Nat) (r : EB_ERRORTYPE),
        st.eos_flag ≠ .EOS_RECEIVED → f.metadata = some dict →
        has_pts_entry st.list f.pts = false →
        (eb_encode_frame st { frame := some f, sendRet := r, poll := .emptyQueue }).st.list
          = st.list ++ [{ pts := f.pts, metadata := some dict, size := dict.length }]) := by
  constructor
  · intro st fr r1 r2 p
    rfl
  · intro st f dict r h hm hd
    have he : (submit_phase st (some f)).earlyReturn = false := by
      simp [submit_phase, hm, hd]
    rw [step_no_early h he, prependEvents_st, gp_empty]
    simp [submit_phase, hm, hd]

/-- witness for the amended C7 at a concrete state, frame and failing
status. -/
theorem c7_submit_status_ignored_entry_retained_witness :
    (initState cfg420).eos_flag ≠ .EOS_RECEIVED ∧
      metaFrame.metadata = some [9, 9, 9] ∧
      has_pts_entry (initState cfg420).list metaFrame.pts = false ∧
      (eb_encode_frame (initState cfg420)
          { frame := some metaFrame, sendRet := .EB_ErrorBadParameter, poll := .emptyQueue }).st.list
        = [{ pts := 42, metadata := some [9, 9, 9], size := 3 }] := by
  refine ⟨by decide, rfl, rfl, ?_⟩
  have := c7_submit_status_ignored_entry_retained.2 (initState cfg420) metaFrame [9, 9, 9]
    .EB_ErrorBadParameter (by decide) rfl rfl
  simpa using this

/-- C10: after n real-frame submissions from a fresh state (each with an
empty poll), the nFilledLen field of the reused input descriptor equals n
times the per-frame size: each call adds the frame size without resetting
the field first. -/
theorem c10_filled_len_accumulates (P : EncParams) (fs : List AVFrame) :
    (runSt (initState P) (fs.map frameCall)).in_buf.nFilledLen
      = fs.length * frame_size_of P := by
  have h := run_frames_filled (initState P) fs rfl
  simpa [initState, alloc_in_buf] using h.1

/-- C2: at every state reachable from a fresh encoder the metadata cache
holds at most one entry per distinct timestamp (the list of entry
timestamps has no duplicate); and submitting a metadata-bearing frame
whose pts matches an existing cache entry returns 0 with no packet and
leaves the cache unchanged, so no new entry is created and the
first-submitted payload stays in place for the eventual match. -/
theorem c2_cache_unique_pts :
    (∀ (P : EncParams) (cs : List Call),
        ((runSt (initState P) cs).list.map EB_FRAMEMETADATA.pts).Nodup) ∧
      (∀ (st : SvtContext) (c : Call) (f : AVFrame) (dict : List Nat),
        c.frame = some f → f.metadata = some dict →
        (∃ p ∈ st.list, p.pts = f.pts) →
        (eb_encode_frame st c).st.list = st.list ∧
          (eb_encode_frame st c).ret = 0 ∧ (eb_encode_frame st c).pkt = none) := by
  constructor
  · intro P cs
    exact run_nodup cs (by simp [initState])
  · intro st c f dict hfr hm hdup
    by_cases hr : st.eos_flag = .EOS_RECEIVED
    · rw [step_received c hr]
      exact ⟨rfl, rfl, rfl⟩
    · have hd : has_pts_entry st.list f.pts = true := by
        rcases hdup with ⟨p, hp, hpp⟩
        simp only [has_pts_entry, List.any_eq_true, decide_eq_true_eq]
        exact ⟨p, hp, hpp⟩
      have he : (submit_phase st c.frame).earlyReturn = true := by
        rw [hfr]
        simp [submit_phase, hm, hd]
      rw [step_early hr he]
      exact ⟨submit_early_list he, rfl, rfl⟩

/-- witness for C2 at a concrete duplicated submission. -/
theorem c2_cache_unique_pts_witness :
    (frameCall metaFrame).frame = some metaFrame ∧
      metaFrame.metadata = some [9, 9, 9] ∧
      (∃ p ∈ dupState.list, p.pts = metaFrame.pts) ∧
      (eb_encode_frame dupState (frameCall metaFrame)).st.list = dupState.list := by
  refine ⟨rfl, rfl, by decide, ?_⟩
  exact (c2_cache_unique_pts.2 dupState (frameCall metaFrame) metaFrame [9, 9, 9]
    rfl rfl (by decide)).1

/-! ## Flush state machine lemmas -/

lemma runLog_fst (st : SvtContext) (cs : List Call) : (runLog st cs).1 = runSt st cs := by
  induction cs generalizing st with
  | nil => rfl
  | cons c cs ih => rw [runSt_cons]; exact ih _

lemma sentinelCount_append (l1 l2 : List EncEvent) :
    sentinelCount (l1 ++ l2) = sentinelCount l1 + sentinelCount l2 := by
  simp [sentinelCount, List.countP_append]

lemma gp_sentinelCount (st : SvtContext) (poll : PollResult) :
    sentinelCount (get_packet_phase st poll).events = 0 := by
  cases poll with
  | emptyQueue => simp [gp_empty, sentinelCount, isSentinelSend]
  | pkt d => simp [gp_pkt, sentinelCount, isSentinelSend]

lemma submit_some_events (st : SvtContext) (f : AVFrame) :
    (submit_phase st (some f)).events =
      [.sendPicture { read_in_data st.enc_params f st.in_buf with pts := f.pts }] := by
  cases hm : f.metadata with
  | none => simp [submit_phase, hm]
  | some dict => by_cases hd : has_pts_entry st.list f.pts <;> simp [submit_phase, hm, hd]

lemma submit_sentinelCount (st : SvtContext) (fr : Option AVFrame)
    (hwh : 0 < frame_size_of st.enc_params) :
    sentinelCount (submit_phase st fr).events =
      (if st.eos_flag = .EOS_NOT_REACHED ∧ fr = none then 1 else 0) := by
  cases fr with
  | none =>
      by_cases h : st.eos_flag = .EOS_NOT_REACHED
      · simp [submit_phase, h, sentinelCount, isSentinelSend, EB_BUFFERFLAG_EOS]
      · simp [submit_phase, h, sentinelCount]
  | some f =>
      rw [submit_some_events]
      have hne : ({ read_in_data st.enc_params f st.in_buf with pts := f.pts } : InBuf).nFilledLen
          ≠ 0 := by
        show (read_in_data st.enc_params f st.in_buf).nFilledLen ≠ 0
        rw [read_in_data_len]
        omega
      simp [sentinelCount, isSentinelSend, hne]

lemma step_sentinelCount (st : SvtContext) (c : Call)
    (hwh : 0 < frame_size_of st.enc_params) :
    sentinelCount (eb_encode_frame st c).events =
      (if st.eos_flag = .EOS_NOT_REACHED ∧ c.frame = none then 1 else 0) := by
  by_cases hr : st.eos_flag = .EOS_RECEIVED
  · rw [step_received c hr]
    have hcon : ¬ (st.eos_flag = .EOS_NOT_REACHED ∧ c.frame = none) := by rw [hr]; simp
    simp [sentinelCount, hcon]
  · by_cases he : (submit_phase st c.frame).earlyReturn
    · rw [step_early hr he]
      show sentinelCount (submit_phase st c.frame).events = _
      rw [submit_sentinelCount st c.frame hwh]
    · rw [step_no_early hr (by simpa using he), prependEvents_events, sentinelCount_append,
        gp_sentinelCount, submit_sentinelCount st c.frame hwh]
      omega

lemma step_eos_after_eos_call {st : SvtContext} {c : Call}
    (h : st.eos_flag = .EOS_NOT_REACHED) (hf : c.frame = none) :
    (eb_encode_frame st c).st.eos_flag ≠ .EOS_NOT_REACHED := by
  have hr : st.eos_flag ≠ .EOS_RECEIVED := by rw [h]; simp
  have he : (submit_phase st c.frame).earlyReturn = false := by
    rw [hf]; simp [submit_phase, h]
  have hsent : (submit_phase st c.frame).st.eos_flag = .EOS_SENT := by
    rw [hf]; simp [submit_phase, h]
  rw [step_no_early hr he, prependEvents_st]
  rcases gp_eos_cases (submit_phase st c.frame).st c.poll with h1 | h1 <;> rw [h1] <;>
    simp [hsent]

lemma step_eos_stays_ne_nr {st : SvtContext} {c : Call}
    (h : st.eos_flag ≠ .EOS_NOT_REACHED) :
    (eb_encode_frame st c).st.eos_flag ≠ .EOS_NOT_REACHED := by
  intro h0
  have hm := step_rank_mono st c
  rw [h0] at hm
  cases hst : st.eos_flag
  · exact h hst
  · rw [hst] at hm; simp [eosRank] at hm
  · rw [hst] at hm; simp [eosRank] at hm

lemma run_sentinel_le_one (st : SvtContext) (cs : List Call)
    (hwh : 0 < frame_size_of st.enc_params) :
    sentinelCount (runLog st cs).2 ≤ 1 ∧
      (st.eos_flag ≠ .EOS_NOT_REACHED → sentinelCount (runLog st cs).2 = 0) := by
  induction cs generalizing st with
  | nil => simp [runLog, sentinelCount]
  | cons c cs ih =>
      have hwh2 : 0 < frame_size_of (eb_encode_frame st c).st.enc_params := by
        rw [step_params]; exact hwh
      obtain ⟨ih1, ih2⟩ := ih (eb_encode_frame st c).st hwh2
      have hrun : (runLog st (c :: cs)).2
          = (eb_encode_frame st c).events ++ (runLog (eb_encode_frame st c).st cs).2 := rfl
      rw [hrun, sentinelCount_append, step_sentinelCount st c hwh]
      by_cases h : st.eos_flag = .EOS_NOT_REACHED ∧ c.frame = none
      · have h2 : (eb_encode_frame st c).st.eos_flag ≠ .EOS_NOT_REACHED :=
          step_eos_after_eos_call h.1 h.2
        rw [if_pos h, ih2 h2]
        exact ⟨le_refl 1, fun hne => absurd h.1 hne⟩
      · rw [if_neg h]
        refine ⟨by simpa using ih1, ?_⟩
        intro hne
        have h2 : (eb_encode_frame st c).st.eos_flag ≠ .EOS_NOT_REACHED :=
          step_eos_stays_ne_nr hne
        simpa using ih2 h2

lemma step_eos_stays_nr {st : SvtContext} {c : Call} (h : st.eos_flag = .EOS_NOT_REACHED)
    (hf : c.frame ≠ none) (hp : ∀ d, c.poll = .pkt d → d.nFlags ≠ EB_BUFFERFLAG_EOS) :
    (eb_encode_frame st c).st.eos_flag = .EOS_NOT_REACHED := by
  have hr : st.eos_flag ≠ .EOS_RECEIVED := by rw [h]; simp
  cases hfr : c.frame with
  | none => exact absurd hfr hf
  | some f =>
      have hse : (submit_phase st c.frame).st.eos_flag = st.eos_flag := by
        rw [hfr]; exact submit_eos_some
      by_cases he : (submit_phase st c.frame).earlyReturn
      · rw [step_early hr he, hse, h]
      · rw [step_no_early hr (by simpa using he), prependEvents_st]
        cases hc : c.poll with
        | emptyQueue => rw [gp_empty, hse, h]
        | pkt d =>
            have hfl : d.nFlags ≠ EB_BUFFERFLAG_EOS := hp d hc
            simp [gp_pkt, hfl, hse, h]

lemma run_eos_stays_nr {st : SvtContext} {cs : List Call}
    (h : st.eos_flag = .EOS_NOT_REACHED)
    (hf : ∀ c ∈ cs, c.frame ≠ none)
    (hp : ∀ c ∈ cs, ∀ d, c.poll = .pkt d → d.nFlags ≠ EB_BUFFERFLAG_EOS) :
    (runSt st cs).eos_flag = .EOS_NOT_REACHED := by
  induction cs generalizing st with
  | nil => exact h
  | cons c cs ih =>
      rw [runSt_cons]
      exact ih (step_eos_stays_nr h (hf c (by simp)) (hp c (by simp)))
        (fun c2 hc2 => hf c2 (List.mem_cons_of_mem _ hc2))
        (fun c2 hc2 => hp c2 (List.mem_cons_of_mem _ hc2))

lemma step_pkt_inversion {st : SvtContext} {c : Call} {pk : Packet}
    (hpk : (eb_encode_frame st c).pkt = some pk) :
    st.eos_flag ≠ .EOS_RECEIVED ∧
      (submit_phase st c.frame).earlyReturn = false ∧
      ∃ d, c.poll = .pkt d ∧
        pk.pts = d.pts ∧
        pk.sideData = (attach_metadata (submit_phase st c.frame).st.list d.pts).2 ∧
        (eb_encode_frame st c).st.list
          = (attach_metadata (submit_phase st c.frame).st.list d.pts).1 ∧
        (eb_encode_frame st c).st.eos_flag
          = (if d.nFlags = EB_BUFFERFLAG_EOS then .EOS_RECEIVED
              else (submit_phase st c.frame).st.eos_flag) := by
  by_cases hr : st.eos_flag = .EOS_RECEIVED
  · rw [step_received c hr] at hpk; cases hpk
  · by_cases he : (submit_phase st c.frame).earlyReturn
    · rw [step_early hr he] at hpk; cases hpk
    · have he2 : (submit_phase st c.frame).earlyReturn = false := by simpa using he
      refine ⟨hr, he2, ?_⟩
      cases hc : c.poll with
      | emptyQueue =>
          rw [step_no_early hr he2, hc, prependEvents_pkt, gp_empty] at hpk
          cases hpk
      | pkt d =>
          simp only [step_no_early hr he2, hc, prependEvents_pkt, gp_pkt] at hpk
          have hpk2 := (Option.some.inj hpk).symm
          refine ⟨d, rfl, ?_, ?_, ?_, ?_⟩
          · rw [hpk2]
          · rw [hpk2]
          · simp only [step_no_early hr he2, hc, prependEvents_st, gp_pkt]
          · simp only [step_no_early hr he2, hc, prependEvents_st, gp_pkt]

/-! ## Membership helpers for the trace statements -/

lemma mem_framesOf {f : AVFrame} {cs : List Call} (h : f ∈ framesOf cs) :
    ∃ c ∈ cs, c.frame = some f := by
  simpa [framesOf, List.mem_filterMap] using h

lemma mem_pollPts {cs : List Call} {c : Call} {d : OutBuf} (hc : c ∈ cs)
    (hd : c.poll = .pkt d) : d.pts ∈ pollPts cs := by
  simp only [pollPts, List.mem_filterMap]
  exact ⟨c, hc, by simp [pollPtsOf, hd]⟩

lemma mem_subPts {cs : List Call} {c : Call} {f : AVFrame} (hc : c ∈ cs)
    (hf : c.frame = some f) : f.pts ∈ subPts cs := by
  simp only [subPts, List.mem_map]
  refine ⟨f, ?_, rfl⟩
  simp only [framesOf, List.mem_filterMap]
  exact ⟨c, hc, hf⟩

/-- C3: over every call sequence from a fresh encoder (i) the flush state
rank never decreases along the run (no transition moves backward); (ii)
for a configuration with a nonzero frame size the EOS sentinel descriptor
(zero length, null data, EOS flag set) is submitted at most once in the
whole sequence; (iii) under the encoder contract that an EOS-flagged
output descriptor is delivered only at or after an end-of-input call, the
first end-of-input call finds the flush state at EOS_NOT_REACHED and is
exactly the call that submits the sentinel, once (so later end-of-input
calls never resubmit it); and (iv) whenever a retrieved output descriptor
carries the EOS flag the flush state after that call is EOS_RECEIVED. -/
theorem c3_flush_state_machine (P : EncParams) (cs : List Call) :
    (∀ pre suf, cs = pre ++ suf →
        eosRank (runSt (initState P) pre).eos_flag
          ≤ eosRank (runSt (initState P) cs).eos_flag) ∧
      (0 < frame_size_of P → sentinelCount (runLog (initState P) cs).2 ≤ 1) ∧
      (∀ pre c rest, cs = pre ++ c :: rest → c.frame = none →
        (∀ c2 ∈ pre, c2.frame ≠ none) →
        (∀ pre2 c2 rest2 d, cs = pre2 ++ c2 :: rest2 → c2.poll = .pkt d →
          d.nFlags = EB_BUFFERFLAG_EOS → ∃ c3 ∈ pre2 ++ [c2], c3.frame = none) →
        0 < frame_size_of P →
        (runSt (initState P) pre).eos_flag = .EOS_NOT_REACHED ∧
          sentinelCount (eb_encode_frame (runSt (initState P) pre) c).events = 1) ∧
      (∀ (st : SvtContext) (c : Call) (d : OutBuf) (pk : Packet), c.poll = .pkt d →
        d.nFlags = EB_BUFFERFLAG_EOS → (eb_encode_frame st c).pkt = some pk →
        (eb_encode_frame st c).st.eos_flag = .EOS_RECEIVED) := by
  refine ⟨?_, ?_, ?_, ?_⟩
  · intro pre suf hcs
    rw [hcs, runSt_append]
    exact run_rank_mono _ _
  · intro hwh
    exact (run_sentinel_le_one (initState P) cs hwh).1
  · intro pre c rest hcs hf hfirst hcausal hwh
    have hp : ∀ c2 ∈ pre, ∀ d, c2.poll = .pkt d → d.nFlags ≠ EB_BUFFERFLAG_EOS := by
      intro c2 hc2 d hcd hflag
      rcases List.append_of_mem hc2 with ⟨u2, v2, hu⟩
      have hcs2 : cs = u2 ++ c2 :: (v2 ++ c :: rest) := by
        rw [hcs, hu]
        simp
      rcases hcausal u2 c2 (v2 ++ c :: rest) d hcs2 hcd hflag with ⟨c3, hc3, hc3f⟩
      have hc3pre : c3 ∈ pre := by
        rw [hu]
        rcases List.mem_append.1 hc3 with h | h
        · exact List.mem_append_left _ h
        · simp at h
          rw [h]
          exact List.mem_append_right _ (by simp)
      exact hfirst c3 hc3pre hc3f
    have hnr : (runSt (initState P) pre).eos_flag = .EOS_NOT_REACHED :=
      run_eos_stays_nr rfl hfirst hp
    refine ⟨hnr, ?_⟩
    have hwh2 : 0 < frame_size_of (runSt (initState P) pre).enc_params := by
      rw [run_params]
      exact hwh
    rw [step_sentinelCount _ c hwh2, if_pos ⟨hnr, hf⟩]
  · intro st c d pk hc hflag hpk
    obtain ⟨_, _, d2, hc2, _, _, _, heos⟩ := step_pkt_inversion hpk
    rw [hc] at hc2
    injection hc2 with hdd
    subst hdd
    rw [heos, if_pos hflag]

/-- witness for C3: after one real-frame call the flush state is still
EOS_NOT_REACHED and the first end-of-input call submits the sentinel
exactly once. -/
theorem c3_flush_state_machine_witness :
    (runSt (initState cfg420) [frameCall planeFrame]).eos_flag = .EOS_NOT_REACHED ∧
      sentinelCount
          (eb_encode_frame (runSt (initState cfg420) [frameCall planeFrame]) eosCall0).events
        = 1 := by
  have hcausal : ∀ pre2 c2 rest2 d,
      [frameCall planeFrame, eosCall0] = pre2 ++ c2 :: rest2 → c2.poll = .pkt d →
      d.nFlags = EB_BUFFERFLAG_EOS → ∃ c3 ∈ pre2 ++ [c2], c3.frame = none := by
    intro pre2 c2 rest2 d hcs2 hcd hflag
    exfalso
    have hmem : c2 ∈ [frameCall planeFrame, eosCall0] := by
      rw [hcs2]
      exact List.mem_append_right _ (List.mem_cons_self _ _)
    simp only [List.mem_cons, List.mem_singleton, List.not_mem_nil, or_false] at hmem
    rcases hmem with rfl | rfl <;> simp [frameCall, eosCall0] at hcd
  exact (c3_flush_state_machine cfg420 [frameCall planeFrame, eosCall0]).2.2.1
    [frameCall planeFrame] eosCall0 [] rfl rfl (by decide) hcausal (by decide)

/-- C1: take any call sequence from a fresh encoder whose submitted frames
have pairwise-distinct timestamps and whose encoder oracle offers each
output timestamp at most once (every output order of the submitted frames,
arbitrary reordering included).  Every packet retrieved at some call whose
pts equals the pts of a metadata-bearing frame submitted at or before that
call carries exactly that frame payload as packet side data, and after
that call the cache holds no entry with that pts any more: the matching
entry was removed and freed at that retrieval, so the payload is attached
exactly once. -/
theorem c1_metadata_attached_exactly_once (P : EncParams)
    (pre rest : List Call) (c : Call)
    (hsub : (subPts (pre ++ c :: rest)).Nodup)
    (hpoll : (pollPts (pre ++ c :: rest)).Nodup)
    (f : AVFrame) (blob : List Nat)
    (hf : f ∈ framesOf (pre ++ [c]))
    (hm : f.metadata = some blob) (hb : blob ≠ [])
    (pk : Packet)
    (hpk : (eb_encode_frame (runSt (initState P) pre) c).pkt = some pk)
    (hpts : pk.pts = f.pts) :
    pk.sideData = some blob ∧
      ∀ q ∈ (eb_encode_frame (runSt (initState P) pre) c).st.list, q.pts ≠ f.pts := by
  obtain ⟨hr, he2, d, hcd, hpkpts, hside, hlist, -⟩ := step_pkt_inversion hpk
  have dpts : d.pts = f.pts := by rw [← hpkpts, hpts]
  set E : EB_FRAMEMETADATA := { pts := f.pts, metadata := some blob, size := blob.length }
    with hE
  have hnodS : ((runSt (initState P) pre).list.map EB_FRAMEMETADATA.pts).Nodup :=
    run_nodup pre (by simp [initState])
  have hnodL : (((submit_phase (runSt (initState P) pre) c.frame).st.list).map
      EB_FRAMEMETADATA.pts).Nodup := submit_nodup hnodS
  have hEL : E ∈ (submit_phase (runSt (initState P) pre) c.frame).st.list := by
    rw [framesOf_append] at hf
    rcases List.mem_append.1 hf with hfpre | hfc
    · -- the frame was submitted at some earlier call in pre
      obtain ⟨c2, hc2in, hc2f⟩ := mem_framesOf hfpre
      obtain ⟨u, v, hpre⟩ := List.append_of_mem hc2in
      have hpoll_ne : ∀ c3 ∈ pre, ∀ d3, c3.poll = .pkt d3 → d3.pts ≠ d.pts := by
        intro c3 hc3 d3 hcd3 heq
        have hm1 : d3.pts ∈ pollPts pre := mem_pollPts hc3 hcd3
        have hm2 : d3.pts ∈ pollPts (c :: rest) := by
          rw [heq]
          exact mem_pollPts (List.mem_cons_self _ _) hcd
        rw [pollPts_append] at hpoll
        exact List.disjoint_of_nodup_append hpoll hm1 hm2
      have hUeos : (runSt (initState P) u).eos_flag ≠ .EOS_RECEIVED := by
        intro h0
        apply hr
        have hru : runSt (initState P) pre = runSt (initState P) u := by
          rw [hpre, runSt_append, run_received _ h0]
        rw [hru, h0]
      have hfresh : f.pts ∉ subPts u := by
        intro h0
        have hdec : subPts (pre ++ c :: rest)
            = subPts u ++ (f.pts :: (subPts v ++ subPts (c :: rest))) := by
          rw [hpre, subPts_append, subPts_append, subPts_cons, hc2f]
          simp
        rw [hdec] at hsub
        exact List.disjoint_of_nodup_append hsub h0 (by simp)
      have hguard : has_pts_entry (runSt (initState P) u).list f.pts = false := by
        refine (has_pts_entry_false_iff _ _).2 ?_
        intro p hp hpp
        rcases run_pts_sub hp with h0 | h0
        · simp [initState] at h0
        · rw [hpp] at h0
          exact hfresh h0
      have hsl : (submit_phase (runSt (initState P) u) c2.frame).st.list
          = (runSt (initState P) u).list ++ [E] := by
        rw [hc2f]
        simp [submit_phase, hm, hguard, hE]
      have hce : (submit_phase (runSt (initState P) u) c2.frame).earlyReturn = false := by
        rw [hc2f]
        simp [submit_phase, hm, hguard]
      have hstep : E ∈ (eb_encode_frame (runSt (initState P) u) c2).st.list := by
        rw [step_no_early hUeos hce, prependEvents_st]
        cases hcp : c2.poll with
        | emptyQueue =>
            rw [gp_empty, hsl]
            simp
        | pkt d2 =>
            simp only [gp_pkt]
            refine attach_mem_of_ne (by rw [hsl]; simp) ?_
            have hne := hpoll_ne c2 hc2in d2 hcp
            show E.pts ≠ d2.pts
            rw [hE]
            intro h0
            apply hne
            rw [← h0, dpts]
      have hSE : E ∈ (runSt (initState P) pre).list := by
        have hrw : runSt (initState P) pre
            = runSt (eb_encode_frame (runSt (initState P) u) c2).st v := by
          rw [hpre, runSt_append, runSt_cons]
        rw [hrw]
        refine run_mem_list hstep ?_
        intro c3 hc3 d3 hcd3
        have hc3pre : c3 ∈ pre := by
          rw [hpre]
          exact List.mem_append_right _ (List.mem_cons_of_mem _ hc3)
        have hne := hpoll_ne c3 hc3pre d3 hcd3
        show d3.pts ≠ E.pts
        rw [hE]
        intro h0
        apply hne
        rw [h0, ← dpts]
      exact submit_list_mono hSE
    · -- the frame is submitted by the call c itself
      have hcf : c.frame = some f := by
        cases hc0 : c.frame with
        | none =>
            rw [framesOf_cons, hc0] at hfc
            simp [framesOf] at hfc
        | some g =>
            rw [framesOf_cons, hc0] at hfc
            simp [framesOf] at hfc
            subst hfc
            rfl
      have hfresh : f.pts ∉ subPts pre := by
        intro h0
        rw [subPts_append] at hsub
        exact List.disjoint_of_nodup_append hsub h0
          (mem_subPts (List.mem_cons_self _ _) hcf)
      have hguard : has_pts_entry (runSt (initState P) pre).list f.pts = false := by
        refine (has_pts_entry_false_iff _ _).2 ?_
        intro p hp hpp
        rcases run_pts_sub hp with h0 | h0
        · simp [initState] at h0
        · rw [hpp] at h0
          exact hfresh h0
      have hsl : (submit_phase (runSt (initState P) pre) c.frame).st.list
          = (runSt (initState P) pre).list ++ [E] := by
        rw [hcf]
        simp [submit_phase, hm, hguard, hE]
      rw [hsl]
      simp
  have hmain := attach_unique (t := d.pts) (b := blob) hnodL hEL
    (by rw [hE]; exact dpts.symm) (by rw [hE]) (by rw [hE]) hb
  constructor
  · rw [hside]
    exact hmain.1
  · intro q hq
    rw [hlist] at hq
    have hq2 := hmain.2 q hq
    rw [← dpts]
    exact hq2

/-- witness for C1: the fresh encoder submits metaFrame (pts 42, metadata
blob 9 9 9) while the oracle delivers the packet with pts 42 in the same
call; the packet carries the blob as side data and the cache entry is
gone. -/
theorem c1_metadata_attached_exactly_once_witness :
    (eb_encode_frame (runSt (initState cfg420) []) corrCall).pkt = some corrPkt ∧
      corrPkt.sideData = some [9, 9, 9] ∧
      (eb_encode_frame (runSt (initState cfg420) []) corrCall).st.list = [] := by
  refine ⟨by decide, ?_, by decide⟩
  exact (c1_metadata_attached_exactly_once cfg420 [] [] corrCall (by decide) (by decide)
    metaFrame [9, 9, 9] (by decide) rfl (by decide) corrPkt (by decide) rfl).1
